import Mathlib

/-!
Verification development for the retail-analytics dashboard pipeline
(`src/datasets/dashboard.py`).  The in-scope pipeline is modelled as pure
functions over lists of rows:

* scalar columns hold exact rationals, but float special values produced by
  pandas division (`NaN`, `+inf`, `-inf`) are modelled explicitly by `PVal`,
  since the division-by-zero policies of the script depend on them;
* a table is a `List` of row structures, in source order;
* `merge(..., how='left')` is modelled by `List.bind` over a per-row match
  list (all matching right rows, or a single all-`none` row when no right row
  matches), which is exactly pandas left-join row multiplication;
* `groupby(k).agg(...)` is modelled by mapping over the deduplicated key list
  and aggregating the filtered group; pandas drops null keys, which matters
  only for the `DEPARTMENT` rollup where the key is an `Option`.

String-valued CSV columns (campaign name, description, product dimension
attributes, demographic classifications) are modelled as non-null `String`s,
matching the source data files.
-/

/-- Pandas float value at the precision the pipeline's claims need: an exact
rational, or one of the IEEE special values NaN / +inf / -inf that numpy
division by zero produces. -/
inductive PVal where
  | num : ℚ → PVal
  | nan : PVal
  | inf : PVal
  | ninf : PVal
deriving DecidableEq, Repr

/-- Pandas / numpy float division restricted to finite operands: exact
quotient when the denominator is nonzero, otherwise `±inf` by the sign of the
numerator and `NaN` for `0/0`.  (No exception is ever raised; the script even
suppresses the warnings.) -/
def pdiv (a b : ℚ) : PVal :=
  if b ≠ 0 then PVal.num (a / b)
  else if 0 < a then PVal.inf
  else if a < 0 then PVal.ninf
  else PVal.nan

/-- `Series.fillna(0)`: replaces `NaN` by `0` and leaves every other value,
including `±inf`, unchanged. -/
def fillna0 : PVal → PVal
  | PVal.nan => PVal.num 0
  | v => v

/-- `pd.isna` on a float value: true exactly for `NaN` (infinities are not
missing values in pandas). -/
def PVal.isna : PVal → Bool
  | PVal.nan => true
  | _ => false

/-- One row of `transaction_data.csv` (the columns the pipeline reads). -/
structure Transaction where
  household_key : ℕ
  basket_id : ℕ
  product_id : ℕ
  store_id : ℕ
  day : ℤ
  quantity : ℤ
  sales_value : ℚ
  retail_disc : ℚ
  coupon_disc : ℚ
  coupon_match_disc : ℚ
deriving DecidableEq, Repr

/-- One row of `product.csv` (the selected columns). -/
structure Product where
  product_id : ℕ
  department : String
  brand : String
  commodity_desc : String
deriving DecidableEq, Repr

/-- One row of `hh_demographic.csv` (the selected classification columns). -/
structure Household where
  household_key : ℕ
  classification_1 : String
  classification_2 : String
  classification_3 : String
  classification_5 : String
deriving DecidableEq, Repr

/-- One row of `campaign_table.csv` (the selected columns). -/
structure CampaignRow where
  household_key : ℕ
  campaign : String
  description : String
deriving DecidableEq, Repr

/-- Days-from-civil-date conversion (proleptic Gregorian), the day-number
arithmetic underlying `pd.Timestamp` at day resolution. -/
def daysFromCivil (y : ℤ) (m d : ℤ) : ℤ :=
  let y' := if m ≤ 2 then y - 1 else y
  let era := (if 0 ≤ y' then y' else y' - 399) / 400
  let yoe := y' - era * 400
  let mp := (m + 9) % 12
  let doy := (153 * mp + 2) / 5 + d - 1
  let doe := yoe * 365 + yoe / 4 - yoe / 100 + doy
  era * 146097 + doe - 719468

/-- `start_date = pd.to_datetime('2023-01-01')`, as a day number. -/
def start_date : ℤ := daysFromCivil 2023 1 1

/-- The date normalizer: `start_date + pd.to_timedelta(d - 1, unit='D')`,
applied to `DAY`, `START_DAY` and `END_DAY`. -/
def normalizeDay (d : ℤ) : ℤ := start_date + (d - 1)

/-- Row after the first merge (`transaction_data ⋈ product` on `PRODUCT_ID`,
`how='left'`), with the `DATE` column already added upstream. -/
structure Row1 where
  tr : Transaction
  date : ℤ
  department : Option String
  brand : Option String
  commodity_desc : Option String
deriving DecidableEq, Repr

/-- Output rows a single transaction contributes to the product left-join:
one row per matching product, or one all-`none` row when nothing matches. -/
def joinProduct (prods : List Product) (t : Transaction) : List Row1 :=
  match prods.filter (fun p => p.product_id == t.product_id) with
  | [] => [{ tr := t, date := normalizeDay t.day,
             department := none, brand := none, commodity_desc := none }]
  | ps => ps.map (fun p =>
      { tr := t, date := normalizeDay t.day,
        department := some p.department, brand := some p.brand,
        commodity_desc := some p.commodity_desc })

/-- Row after the second merge (`⋈ hh_demographic` on `household_key`,
`how='left'`), with the classification columns already renamed. -/
structure Row2 where
  r1 : Row1
  demographic_group : Option String
  demographic_type : Option String
  demographic_level : Option String
  shopping_segment : Option String
deriving DecidableEq, Repr

/-- Output rows a single joined row contributes to the demographic
left-join. -/
def joinDemo (hhs : List Household) (r : Row1) : List Row2 :=
  match hhs.filter (fun h => h.household_key == r.tr.household_key) with
  | [] => [{ r1 := r, demographic_group := none, demographic_type := none,
             demographic_level := none, shopping_segment := none }]
  | hs => hs.map (fun h =>
      { r1 := r, demographic_group := some h.classification_1,
        demographic_type := some h.classification_2,
        demographic_level := some h.classification_3,
        shopping_segment := some h.classification_5 })

/-- Recursion for `dedupFirst`: keep each row whose household key has not
been seen yet, accumulating the seen keys. -/
def dedupFirstAux : List CampaignRow → List ℕ → List CampaignRow
  | [], _ => []
  | r :: rs, seen =>
      if r.household_key ∈ seen then dedupFirstAux rs seen
      else r :: dedupFirstAux rs (r.household_key :: seen)

/-- `campaign_table.groupby('household_key').first()`: one row per household
key, holding the values of that key's first row in source order.  (The
output order pandas produces — sorted by key — is irrelevant to every claim,
which only reads the dedup result through a join or a membership test.) -/
def dedupFirst (l : List CampaignRow) : List CampaignRow := dedupFirstAux l []

/-- Row after the third merge (`⋈ campaign_participation` on `household_key`,
`how='left'`).  `in_campaign_merged` is the merged `IN_CAMPAIGN` column
before `fillna(0)`: `some 1` where a campaign row matched, `none` (NaN)
otherwise. -/
structure Row3 where
  r2 : Row2
  campaign : Option String
  description : Option String
  in_campaign_merged : Option ℤ
deriving DecidableEq, Repr

/-- Output rows a single joined row contributes to the campaign left-join
(the right table is `dedupFirst` of the campaign table). -/
def joinCampaign (camps : List CampaignRow) (r : Row2) : List Row3 :=
  match camps.filter (fun c => c.household_key == r.r1.tr.household_key) with
  | [] => [{ r2 := r, campaign := none, description := none,
             in_campaign_merged := none }]
  | cs => cs.map (fun c =>
      { r2 := r, campaign := some c.campaign, description := some c.description,
        in_campaign_merged := some 1 })

/-- One row of the enriched fact table `df` with its derived columns. -/
structure FactRow where
  household_key : ℕ
  basket_id : ℕ
  product_id : ℕ
  store_id : ℕ
  day : ℤ
  quantity : ℤ
  sales_value : ℚ
  retail_disc : ℚ
  coupon_disc : ℚ
  coupon_match_disc : ℚ
  date : ℤ
  department : Option String
  brand : Option String
  commodity_desc : Option String
  demographic_group : Option String
  demographic_type : Option String
  demographic_level : Option String
  shopping_segment : Option String
  campaign : Option String
  description : Option String
  in_campaign : ℤ
  campaign_type : String
  total_discount : ℚ
  discount_rate : PVal
  net_revenue : ℚ
  unit_price : PVal
  has_discount : ℤ
deriving DecidableEq, Repr

/-- The derived-column block of the script (`IN_CAMPAIGN` fill,
`CAMPAIGN_TYPE`, discount features, revenue features), applied to one
fully-joined row. -/
def deriveFeatures (r : Row3) : FactRow :=
  let t := r.r2.r1.tr
  let td := t.coupon_match_disc + t.coupon_disc + t.retail_disc
  { household_key := t.household_key
    basket_id := t.basket_id
    product_id := t.product_id
    store_id := t.store_id
    day := t.day
    quantity := t.quantity
    sales_value := t.sales_value
    retail_disc := t.retail_disc
    coupon_disc := t.coupon_disc
    coupon_match_disc := t.coupon_match_disc
    date := r.r2.r1.date
    department := r.r2.r1.department
    brand := r.r2.r1.brand
    commodity_desc := r.r2.r1.commodity_desc
    demographic_group := r.r2.demographic_group
    demographic_type := r.r2.demographic_type
    demographic_level := r.r2.demographic_level
    shopping_segment := r.r2.shopping_segment
    campaign := r.campaign
    description := r.description
    in_campaign := r.in_campaign_merged.getD 0
    campaign_type := r.description.getD "No Campaign"
    total_discount := td
    discount_rate := fillna0 (pdiv td (t.sales_value + td))
    net_revenue := t.sales_value
    unit_price := pdiv t.sales_value (t.quantity : ℚ)
    has_discount := if 0 < td then 1 else 0 }

/-- The whole in-scope pipeline up to the enriched fact table `df`: date
normalisation, the three sequential left-joins (campaign participation
deduplicated first), and the derived columns. -/
def enrich (trans : List Transaction) (prods : List Product)
    (hhs : List Household) (camps : List CampaignRow) : List FactRow :=
  ((((trans.flatMap (joinProduct prods)).flatMap (joinDemo hhs)).flatMap
      (joinCampaign (dedupFirst camps))).map deriveFeatures)

/-- One row of `campaign_desc.csv` (the columns the date block reads). -/
structure CampaignDesc where
  description : String
  campaign : String
  start_day : ℤ
  end_day : ℤ
deriving DecidableEq, Repr

/-- `campaign_desc` after the `START_DATE` / `END_DATE` columns are added. -/
structure CampaignDescDated where
  base : CampaignDesc
  start_date_col : ℤ
  end_date_col : ℤ
deriving DecidableEq, Repr

/-- The two date-normalisation assignments on `campaign_desc`. -/
def addCampaignDates (c : CampaignDesc) : CampaignDescDated :=
  { base := c, start_date_col := normalizeDay c.start_day,
    end_date_col := normalizeDay c.end_day }

/-- Minimum of a date column (groups the pipeline reduces are nonempty, so
the default for `[]` is never observed). -/
def listMinD : List ℤ → ℤ
  | [] => 0
  | d :: ds => ds.foldl min d

/-- Maximum of a date column, same convention as `listMinD`. -/
def listMaxD : List ℤ → ℤ
  | [] => 0
  | d :: ds => ds.foldl max d

/-- One row of the `customer_metrics` rollup. -/
structure CustomerMetrics where
  household_key : ℕ
  num_trips : ℕ
  total_spent : ℚ
  total_items : ℤ
  first_purchase : ℤ
  last_purchase : ℤ
  total_discounts : ℚ
  num_stores : ℕ
  days_active : ℤ
  avg_basket_value : PVal
  items_per_trip : PVal
  discount_rate : PVal
deriving DecidableEq, Repr

/-- `df.groupby('household_key').agg(...)` plus the derived ratio columns:
distinct-basket trip count, summed measures, min/max purchase date, distinct
store count, then `DAYS_ACTIVE`, `AVG_BASKET_VALUE`, `ITEMS_PER_TRIP` and the
(unguarded) customer `DISCOUNT_RATE`.  The grouping key is an integer column
and is never null, so every fact row lands in exactly one group. -/
def customer_metrics (rows : List FactRow) : List CustomerMetrics :=
  ((rows.map FactRow.household_key).dedup).map (fun h =>
    let grp := rows.filter (fun r => r.household_key == h)
    let trips := ((grp.map FactRow.basket_id).dedup).length
    let spent := (grp.map FactRow.sales_value).sum
    let items := (grp.map FactRow.quantity).sum
    let fp := listMinD (grp.map FactRow.date)
    let lp := listMaxD (grp.map FactRow.date)
    let discs := (grp.map FactRow.total_discount).sum
    { household_key := h, num_trips := trips, total_spent := spent,
      total_items := items, first_purchase := fp, last_purchase := lp,
      total_discounts := discs,
      num_stores := ((grp.map FactRow.store_id).dedup).length,
      days_active := (lp - fp) + 1,
      avg_basket_value := pdiv spent (trips : ℚ),
      items_per_trip := pdiv (items : ℚ) (trips : ℚ),
      discount_rate := pdiv discs (spent + discs) })

/-- One row of the `dept_performance` rollup. -/
structure DeptPerf where
  department : String
  total_revenue : ℚ
  total_quantity : ℤ
  num_baskets : ℕ
  num_customers : ℕ
deriving DecidableEq, Repr

/-- `df.groupby('DEPARTMENT').agg(...)`: pandas `groupby` drops rows whose
grouping key is null, so rows whose product join failed (department `none`)
belong to no department group. -/
def dept_performance (rows : List FactRow) : List DeptPerf :=
  ((rows.filterMap FactRow.department).dedup).map (fun dep =>
    let grp := rows.filter (fun r => r.department == some dep)
    { department := dep,
      total_revenue := (grp.map FactRow.sales_value).sum,
      total_quantity := (grp.map FactRow.quantity).sum,
      num_baskets := ((grp.map FactRow.basket_id).dedup).length,
      num_customers := ((grp.map FactRow.household_key).dedup).length })

/-! ### Concrete rows used by witnesses and counterexamples -/

/-- A plain transaction: no discounts, quantity 1. -/
def tA : Transaction :=
  { household_key := 7, basket_id := 1, product_id := 100, store_id := 3,
    day := 1, quantity := 1, sales_value := 10, retail_disc := 0,
    coupon_disc := 0, coupon_match_disc := 0 }

/-- A fully discounted transaction: `SALES_VALUE + TOTAL_DISCOUNT = 0` with
`TOTAL_DISCOUNT = -5 ≠ 0`. -/
def tB : Transaction :=
  { household_key := 7, basket_id := 1, product_id := 100, store_id := 3,
    day := 1, quantity := 1, sales_value := 5, retail_disc := 0,
    coupon_disc := 0, coupon_match_disc := -5 }

/-- A zero-quantity transaction with nonzero sales value. -/
def tC : Transaction :=
  { household_key := 7, basket_id := 1, product_id := 100, store_id := 3,
    day := 1, quantity := 0, sales_value := 5, retail_disc := 0,
    coupon_disc := 0, coupon_match_disc := 0 }

/-- Second basket of household 7: basket 2, sales value 30. -/
def tD : Transaction :=
  { household_key := 7, basket_id := 2, product_id := 100, store_id := 3,
    day := 4, quantity := 2, sales_value := 30, retail_disc := 0,
    coupon_disc := 0, coupon_match_disc := 0 }

/-- First basket of household 7 for the customer-metrics example: basket 1,
sales value 50. -/
def tE : Transaction :=
  { household_key := 7, basket_id := 1, product_id := 100, store_id := 3,
    day := 1, quantity := 3, sales_value := 50, retail_disc := 0,
    coupon_disc := 0, coupon_match_disc := 0 }

/-- A campaign participation row for household 7. -/
def cA : CampaignRow :=
  { household_key := 7, campaign := "A", description := "TypeA" }

/-- A later campaign participation row for household 7, different values. -/
def cB : CampaignRow :=
  { household_key := 7, campaign := "B", description := "TypeB" }

/-- The fully-joined (all dimensions unmatched) row of transaction `t`. -/
def bareRow3 (t : Transaction) : Row3 :=
  { r2 := { r1 := { tr := t, date := normalizeDay t.day, department := none,
                    brand := none, commodity_desc := none },
            demographic_group := none, demographic_type := none,
            demographic_level := none, shopping_segment := none },
    campaign := none, description := none, in_campaign_merged := none }

/-- The fully-joined row of transaction `t` when campaign row `c` matches. -/
def campRow3 (t : Transaction) (c : CampaignRow) : Row3 :=
  { r2 := { r1 := { tr := t, date := normalizeDay t.day, department := none,
                    brand := none, commodity_desc := none },
            demographic_group := none, demographic_type := none,
            demographic_level := none, shopping_segment := none },
    campaign := some c.campaign, description := some c.description,
    in_campaign_merged := some 1 }

/-- A transaction with zero sales value and zero discounts. -/
def tF : Transaction :=
  { household_key := 7, basket_id := 1, product_id := 100, store_id := 3,
    day := 1, quantity := 1, sales_value := 0, retail_disc := 0,
    coupon_disc := 0, coupon_match_disc := 0 }

/-- A product row matching product identifier 100. -/
def pA : Product :=
  { product_id := 100, department := "GROCERY", brand := "Private",
    commodity_desc := "SOFT DRINKS" }

/-- The fully-joined row of transaction `t` when product row `p` matches and
the other dimensions do not. -/
def prodRow3 (t : Transaction) (p : Product) : Row3 :=
  { r2 := { r1 := { tr := t, date := normalizeDay t.day,
                    department := some p.department, brand := some p.brand,
                    commodity_desc := some p.commodity_desc },
            demographic_group := none, demographic_type := none,
            demographic_level := none, shopping_segment := none },
    campaign := none, description := none, in_campaign_merged := none }

instance : Inhabited CustomerMetrics :=
  ⟨{ household_key := 0, num_trips := 0, total_spent := 0, total_items := 0,
     first_purchase := 0, last_purchase := 0, total_discounts := 0,
     num_stores := 0, days_active := 0, avg_basket_value := PVal.nan,
     items_per_trip := PVal.nan, discount_rate := PVal.nan }⟩

/-- The single customer-metrics entry of the one-transaction table built
from `tA`. -/
def cmA : CustomerMetrics := (customer_metrics (enrich [tA] [] [] [])).headI

/-! ### Helper lemmas on keyed filters and singleton-producing joins -/

lemma filter_key_eq_nil {α κ : Type} [DecidableEq κ] (key : α → κ) (l : List α)
    (k : κ) (h : ∀ a ∈ l, key a ≠ k) : l.filter (fun a => key a == k) = [] := by
  induction l with
  | nil => rfl
  | cons a l ih =>
      have ha : key a ≠ k := h a (List.mem_cons_self a l)
      simp only [List.filter_cons, beq_iff_eq, ha, if_false]
      exact ih (fun x hx => h x (List.mem_cons_of_mem a hx))

lemma length_filter_key_le_one {α κ : Type} [DecidableEq κ] (key : α → κ)
    (l : List α) (h : (l.map key).Nodup) (k : κ) :
    (l.filter (fun a => key a == k)).length ≤ 1 := by
  induction l with
  | nil => simp
  | cons a l ih =>
      simp only [List.map_cons, List.nodup_cons] at h
      by_cases hk : key a = k
      · have hnil : l.filter (fun a => key a == k) = [] := by
          refine filter_key_eq_nil key l k (fun x hx hxk => ?_)
          have : key a ∈ l.map key := by
            rw [hk, ← hxk]
            exact List.mem_map_of_mem key hx
          exact h.1 this
        simp [List.filter_cons, hk, hnil]
      · simpa [List.filter_cons, hk] using ih h.2

lemma filter_key_singleton {α κ : Type} [DecidableEq κ] (key : α → κ)
    (l : List α) (h : (l.map key).Nodup) (k : κ) (hmem : k ∈ l.map key) :
    ∃ a, l.filter (fun x => key x == k) = [a] ∧ key a = k ∧ a ∈ l := by
  obtain ⟨a, ha, hak⟩ := List.mem_map.mp hmem
  have hmemf : a ∈ l.filter (fun x => key x == k) := by
    simp [List.mem_filter, ha, hak]
  have hlen := length_filter_key_le_one key l h k
  match hf : l.filter (fun x => key x == k) with
  | [] => rw [hf] at hmemf; exact absurd hmemf (List.not_mem_nil a)
  | [b] =>
      refine ⟨b, rfl, ?_, ?_⟩
      · have hbmem : b ∈ l.filter (fun x => key x == k) := by simp [hf]
        have := (List.mem_filter.mp hbmem).2
        exact beq_iff_eq.mp this
      · exact (List.mem_filter.mp (by simp [hf] : b ∈ l.filter (fun x => key x == k))).1
  | b :: c :: rest => rw [hf] at hlen; simp at hlen

lemma flatMap_singleton_proj {α β : Type} (f : α → List β) (proj : β → α)
    (hsig : ∀ a, ∃ b, f a = [b]) (hproj : ∀ a, ∀ b ∈ f a, proj b = a)
    (l : List α) :
    (l.flatMap f).map proj = l ∧ (l.flatMap f).length = l.length := by
  induction l with
  | nil => simp
  | cons a l ih =>
      obtain ⟨b, hb⟩ := hsig a
      have hpb : proj b = a := hproj a b (by simp [hb])
      simp [List.flatMap_cons, hb, hpb, ih.1, ih.2]

/-! ### Per-stage join lemmas -/

lemma joinProduct_base (prods : List Product) (t : Transaction) :
    ∀ r ∈ joinProduct prods t, r.tr = t ∧ r.date = normalizeDay t.day := by
  intro r hr
  unfold joinProduct at hr
  match hf : prods.filter (fun p => p.product_id == t.product_id) with
  | [] => rw [hf] at hr; simp at hr; subst hr; exact ⟨rfl, rfl⟩
  | p :: ps =>
      rw [hf] at hr
      obtain ⟨q, _, hq⟩ := List.mem_map.mp hr
      subst hq; exact ⟨rfl, rfl⟩

lemma joinProduct_singleton (prods : List Product) (t : Transaction)
    (h : (prods.map Product.product_id).Nodup) :
    ∃ r, joinProduct prods t = [r] := by
  unfold joinProduct
  have hlen := length_filter_key_le_one Product.product_id prods h t.product_id
  match hf : prods.filter (fun p => p.product_id == t.product_id) with
  | [] => rw [hf]; exact ⟨_, rfl⟩
  | [p] => rw [hf]; exact ⟨_, rfl⟩
  | p :: q :: ps => rw [hf] at hlen; simp at hlen

lemma joinDemo_base (hhs : List Household) (r : Row1) :
    ∀ s ∈ joinDemo hhs r, s.r1 = r := by
  intro s hs
  unfold joinDemo at hs
  match hf : hhs.filter (fun h => h.household_key == r.tr.household_key) with
  | [] => rw [hf] at hs; simp at hs; subst hs; rfl
  | p :: ps =>
      rw [hf] at hs
      obtain ⟨q, _, hq⟩ := List.mem_map.mp hs
      subst hq; rfl

lemma joinDemo_singleton (hhs : List Household) (r : Row1)
    (h : (hhs.map Household.household_key).Nodup) :
    ∃ s, joinDemo hhs r = [s] := by
  unfold joinDemo
  have hlen := length_filter_key_le_one Household.household_key hhs h r.tr.household_key
  match hf : hhs.filter (fun x => x.household_key == r.tr.household_key) with
  | [] => rw [hf]; exact ⟨_, rfl⟩
  | [p] => rw [hf]; exact ⟨_, rfl⟩
  | p :: q :: ps => rw [hf] at hlen; simp at hlen

lemma joinCampaign_base (camps : List CampaignRow) (r : Row2) :
    ∀ s ∈ joinCampaign camps r, s.r2 = r := by
  intro s hs
  unfold joinCampaign at hs
  match hf : camps.filter (fun c => c.household_key == r.r1.tr.household_key) with
  | [] => rw [hf] at hs; simp at hs; subst hs; rfl
  | p :: ps =>
      rw [hf] at hs
      obtain ⟨q, _, hq⟩ := List.mem_map.mp hs
      subst hq; rfl

lemma joinCampaign_singleton (camps : List CampaignRow) (r : Row2)
    (h : (camps.map CampaignRow.household_key).Nodup) :
    ∃ s, joinCampaign camps r = [s] := by
  unfold joinCampaign
  have hlen := length_filter_key_le_one CampaignRow.household_key camps h r.r1.tr.household_key
  match hf : camps.filter (fun c => c.household_key == r.r1.tr.household_key) with
  | [] => rw [hf]; exact ⟨_, rfl⟩
  | [p] => rw [hf]; exact ⟨_, rfl⟩
  | p :: q :: ps => rw [hf] at hlen; simp at hlen

/-! ### Deduplication lemmas -/

lemma dedupFirstAux_subset (l : List CampaignRow) (seen : List ℕ) :
    ∀ r ∈ dedupFirstAux l seen, r ∈ l := by
  induction l generalizing seen with
  | nil => intro r hr; simp [dedupFirstAux] at hr
  | cons a l ih =>
      intro r hr
      unfold dedupFirstAux at hr
      by_cases hmem : a.household_key ∈ seen
      · rw [if_pos hmem] at hr
        exact List.mem_cons_of_mem a (ih seen r hr)
      · rw [if_neg hmem] at hr
        rcases List.mem_cons.mp hr with h | h
        · exact h ▸ List.mem_cons_self a l
        · exact List.mem_cons_of_mem a (ih _ r h)

lemma dedupFirstAux_not_seen (l : List CampaignRow) (seen : List ℕ) :
    ∀ r ∈ dedupFirstAux l seen, r.household_key ∉ seen := by
  induction l generalizing seen with
  | nil => intro r hr; simp [dedupFirstAux] at hr
  | cons a l ih =>
      intro r hr
      unfold dedupFirstAux at hr
      by_cases hmem : a.household_key ∈ seen
      · rw [if_pos hmem] at hr
        exact ih seen r hr
      · rw [if_neg hmem] at hr
        rcases List.mem_cons.mp hr with h | h
        · exact h ▸ hmem
        · intro hcon
          exact ih _ r h (List.mem_cons_of_mem _ hcon)

lemma dedupFirstAux_keys_nodup (l : List CampaignRow) (seen : List ℕ) :
    ((dedupFirstAux l seen).map CampaignRow.household_key).Nodup := by
  induction l generalizing seen with
  | nil => simp [dedupFirstAux]
  | cons a l ih =>
      unfold dedupFirstAux
      by_cases hmem : a.household_key ∈ seen
      · rw [if_pos hmem]; exact ih seen
      · rw [if_neg hmem]
        simp only [List.map_cons, List.nodup_cons]
        refine ⟨?_, ih _⟩
        intro hcon
        obtain ⟨r, hr, hrk⟩ := List.mem_map.mp hcon
        have := dedupFirstAux_not_seen l (a.household_key :: seen) r hr
        exact this (hrk ▸ List.mem_cons_self _ _)

lemma dedupFirstAux_mem_keys (l : List CampaignRow) (seen : List ℕ) (k : ℕ) :
    k ∈ (dedupFirstAux l seen).map CampaignRow.household_key ↔
      k ∈ l.map CampaignRow.household_key ∧ k ∉ seen := by
  induction l generalizing seen with
  | nil => simp [dedupFirstAux]
  | cons a l ih =>
      unfold dedupFirstAux
      by_cases hmem : a.household_key ∈ seen
      · rw [if_pos hmem]
        rw [ih seen]
        simp only [List.map_cons, List.mem_cons]
        constructor
        · rintro ⟨h1, h2⟩; exact ⟨Or.inr h1, h2⟩
        · rintro ⟨h1 | h1, h2⟩
          · exact absurd (h1 ▸ hmem) h2
          · exact ⟨h1, h2⟩
      · rw [if_neg hmem]
        simp only [List.map_cons, List.mem_cons]
        rw [ih (a.household_key :: seen)]
        simp only [List.mem_cons]
        constructor
        · rintro (h | ⟨h1, h2⟩)
          · exact ⟨Or.inl h, h ▸ hmem⟩
          · exact ⟨Or.inr h1, fun hc => h2 (Or.inr hc)⟩
        · rintro ⟨h1 | h1, h2⟩
          · exact Or.inl h1
          · by_cases hk : k = a.household_key
            · exact Or.inl hk
            · exact Or.inr ⟨h1, fun hc => (hc.elim hk h2).elim⟩

lemma dedupFirstAux_find (l : List CampaignRow) (seen : List ℕ) :
    ∀ r ∈ dedupFirstAux l seen,
      l.find? (fun c => c.household_key == r.household_key) = some r := by
  induction l generalizing seen with
  | nil => intro r hr; simp [dedupFirstAux] at hr
  | cons a l ih =>
      intro r hr
      unfold dedupFirstAux at hr
      by_cases hmem : a.household_key ∈ seen
      · rw [if_pos hmem] at hr
        have hrk := dedupFirstAux_not_seen l seen r hr
        have hne : a.household_key ≠ r.household_key := fun hc => hrk (hc ▸ hmem)
        rw [List.find?_cons_of_neg _ (by simpa using hne)]
        exact ih seen r hr
      · rw [if_neg hmem] at hr
        rcases List.mem_cons.mp hr with h | h
        · subst h
          exact List.find?_cons_of_pos _ (by simp)
        · have hrk := dedupFirstAux_not_seen l (a.household_key :: seen) r h
          have hne : a.household_key ≠ r.household_key := by
            intro hc
            exact hrk (hc ▸ List.mem_cons_self _ _)
          rw [List.find?_cons_of_neg _ (by simpa using hne)]
          exact ih _ r h

/-- The original transaction columns recovered from an enriched row. -/
def FactRow.toTransaction (r : FactRow) : Transaction :=
  { household_key := r.household_key, basket_id := r.basket_id,
    product_id := r.product_id, store_id := r.store_id, day := r.day,
    quantity := r.quantity, sales_value := r.sales_value,
    retail_disc := r.retail_disc, coupon_disc := r.coupon_disc,
    coupon_match_disc := r.coupon_match_disc }

lemma deriveFeatures_toTransaction (r : Row3) :
    (deriveFeatures r).toTransaction = r.r2.r1.tr := rfl

lemma enrich_mem {trans : List Transaction} {prods : List Product}
    {hhs : List Household} {camps : List CampaignRow} {r : FactRow}
    (hr : r ∈ enrich trans prods hhs camps) :
    ∃ t ∈ trans, ∃ r1 ∈ joinProduct prods t, ∃ r2 ∈ joinDemo hhs r1,
      ∃ r3 ∈ joinCampaign (dedupFirst camps) r2, r = deriveFeatures r3 := by
  unfold enrich at hr
  obtain ⟨r3, h3, hr⟩ := List.mem_map.mp hr
  obtain ⟨r2, h2, h3'⟩ := List.mem_flatMap.mp h3
  obtain ⟨r1, h1, h2'⟩ := List.mem_flatMap.mp h2
  obtain ⟨t, ht, h1'⟩ := List.mem_flatMap.mp h1
  exact ⟨t, ht, r1, h1', r2, h2', r3, h3', hr.symm⟩

lemma joinProduct_unmatched (prods : List Product) (t : Transaction)
    (h : ∀ p ∈ prods, p.product_id ≠ t.product_id) :
    joinProduct prods t = [{ tr := t, date := normalizeDay t.day,
                             department := none, brand := none,
                             commodity_desc := none }] := by
  unfold joinProduct
  rw [filter_key_eq_nil Product.product_id prods t.product_id h]

lemma joinDemo_unmatched (hhs : List Household) (r : Row1)
    (h : ∀ x ∈ hhs, x.household_key ≠ r.tr.household_key) :
    joinDemo hhs r = [{ r1 := r, demographic_group := none,
                        demographic_type := none, demographic_level := none,
                        shopping_segment := none }] := by
  unfold joinDemo
  rw [filter_key_eq_nil Household.household_key hhs r.tr.household_key h]

lemma joinCampaign_cases (camps : List CampaignRow) (r : Row2) (s : Row3)
    (hs : s ∈ joinCampaign camps r) :
    (s.campaign = none ∧ s.description = none ∧ s.in_campaign_merged = none ∧
       ∀ c ∈ camps, c.household_key ≠ r.r1.tr.household_key) ∨
    (∃ c ∈ camps, c.household_key = r.r1.tr.household_key ∧
       s.campaign = some c.campaign ∧ s.description = some c.description ∧
       s.in_campaign_merged = some 1) := by
  unfold joinCampaign at hs
  match hf : camps.filter (fun c => c.household_key == r.r1.tr.household_key) with
  | [] =>
      rw [hf] at hs
      simp only [List.mem_singleton] at hs
      subst hs
      left
      refine ⟨rfl, rfl, rfl, ?_⟩
      intro c hc hck
      have : c ∈ camps.filter (fun c => c.household_key == r.r1.tr.household_key) := by
        simp [List.mem_filter, hc, hck]
      rw [hf] at this
      exact List.not_mem_nil c this
  | d :: ds =>
      rw [hf] at hs
      obtain ⟨c, hc, hcs⟩ := List.mem_map.mp hs
      have hcf : c ∈ camps.filter (fun c => c.household_key == r.r1.tr.household_key) := by
        rw [hf]; exact hc
      have hmem := (List.mem_filter.mp hcf).1
      have hkey : c.household_key = r.r1.tr.household_key :=
        beq_iff_eq.mp (List.mem_filter.mp hcf).2
      right
      exact ⟨c, hmem, hkey, by rw [← hcs], by rw [← hcs], by rw [← hcs]⟩

/-- C1: when product identifiers are unique in the product table and
household identifiers are unique in the demographic table, the enriched fact
table built by the three sequential left-joins (with campaign participation
deduplicated) has exactly as many rows as the source transaction table,
retains every source transaction row in order, and leaves unmatched
dimension attributes null. -/
theorem enrich_preserves_rows (trans : List Transaction) (prods : List Product)
    (hhs : List Household) (camps : List CampaignRow)
    (hp : (prods.map Product.product_id).Nodup)
    (hh : (hhs.map Household.household_key).Nodup) :
    (enrich trans prods hhs camps).length = trans.length ∧
    (enrich trans prods hhs camps).map FactRow.toTransaction = trans ∧
    ∀ r ∈ enrich trans prods hhs camps,
      ((∀ p ∈ prods, p.product_id ≠ r.product_id) →
         r.department = none ∧ r.brand = none ∧ r.commodity_desc = none) ∧
      ((∀ x ∈ hhs, x.household_key ≠ r.household_key) →
         r.demographic_group = none ∧ r.demographic_type = none ∧
         r.demographic_level = none ∧ r.shopping_segment = none) ∧
      ((∀ c ∈ camps, c.household_key ≠ r.household_key) →
         r.campaign = none ∧ r.description = none) := by
  have h1 := flatMap_singleton_proj (joinProduct prods) Row1.tr
    (fun t => joinProduct_singleton prods t hp)
    (fun t r hr => (joinProduct_base prods t r hr).1) trans
  have h2 := flatMap_singleton_proj (joinDemo hhs) Row2.r1
    (fun r => joinDemo_singleton hhs r hh)
    (fun r s hs => joinDemo_base hhs r s hs)
    (trans.flatMap (joinProduct prods))
  have h3 := flatMap_singleton_proj (joinCampaign (dedupFirst camps)) Row3.r2
    (fun r => joinCampaign_singleton (dedupFirst camps) r
      (dedupFirstAux_keys_nodup camps []))
    (fun r s hs => joinCampaign_base (dedupFirst camps) r s hs)
    ((trans.flatMap (joinProduct prods)).flatMap (joinDemo hhs))
  refine ⟨?_, ?_, ?_⟩
  · show (((((trans.flatMap (joinProduct prods)).flatMap (joinDemo hhs)).flatMap
        (joinCampaign (dedupFirst camps))).map deriveFeatures)).length = trans.length
    rw [List.length_map, h3.2, h2.2, h1.2]
  · show (((((trans.flatMap (joinProduct prods)).flatMap (joinDemo hhs)).flatMap
        (joinCampaign (dedupFirst camps))).map deriveFeatures)).map
        FactRow.toTransaction = trans
    rw [List.map_map]
    have hcomp : FactRow.toTransaction ∘ deriveFeatures =
        (Row1.tr ∘ Row2.r1) ∘ Row3.r2 := rfl
    rw [hcomp, ← List.map_map, h3.1, ← List.map_map, h2.1, h1.1]
  · intro r hr
    obtain ⟨t, ht, r1, hm1, r2, hm2, r3, hm3, hreq⟩ := enrich_mem hr
    have hb1 : r1.tr = t := (joinProduct_base prods t r1 hm1).1
    have hb2 : r2.r1 = r1 := joinDemo_base hhs r1 r2 hm2
    have hb3 : r3.r2 = r2 := joinCampaign_base (dedupFirst camps) r2 r3 hm3
    have hkey : r.household_key = t.household_key := by
      rw [hreq]
      show r3.r2.r1.tr.household_key = t.household_key
      rw [hb3, hb2, hb1]
    have hpid : r.product_id = t.product_id := by
      rw [hreq]
      show r3.r2.r1.tr.product_id = t.product_id
      rw [hb3, hb2, hb1]
    refine ⟨?_, ?_, ?_⟩
    · intro hnp
      have hnt : ∀ p ∈ prods, p.product_id ≠ t.product_id := by
        intro p hpp
        rw [← hpid]
        exact hnp p hpp
      have hjp := joinProduct_unmatched prods t hnt
      rw [hjp, List.mem_singleton] at hm1
      have hd : r.department = r1.department := by
        rw [hreq]
        show r3.r2.r1.department = r1.department
        rw [hb3, hb2]
      have hbnd : r.brand = r1.brand := by
        rw [hreq]
        show r3.r2.r1.brand = r1.brand
        rw [hb3, hb2]
      have hcd : r.commodity_desc = r1.commodity_desc := by
        rw [hreq]
        show r3.r2.r1.commodity_desc = r1.commodity_desc
        rw [hb3, hb2]
      rw [hd, hbnd, hcd, hm1]
      exact ⟨rfl, rfl, rfl⟩
    · intro hnh
      have hnt : ∀ x ∈ hhs, x.household_key ≠ r1.tr.household_key := by
        intro x hx
        rw [hb1, ← hkey]
        exact hnh x hx
      have hjd := joinDemo_unmatched hhs r1 hnt
      rw [hjd, List.mem_singleton] at hm2
      have hg : r.demographic_group = r2.demographic_group := by
        rw [hreq]; show r3.r2.demographic_group = r2.demographic_group; rw [hb3]
      have hty : r.demographic_type = r2.demographic_type := by
        rw [hreq]; show r3.r2.demographic_type = r2.demographic_type; rw [hb3]
      have hl : r.demographic_level = r2.demographic_level := by
        rw [hreq]; show r3.r2.demographic_level = r2.demographic_level; rw [hb3]
      have hsg : r.shopping_segment = r2.shopping_segment := by
        rw [hreq]; show r3.r2.shopping_segment = r2.shopping_segment; rw [hb3]
      rw [hg, hty, hl, hsg, hm2]
      exact ⟨rfl, rfl, rfl, rfl⟩
    · intro hnc
      rcases joinCampaign_cases (dedupFirst camps) r2 r3 hm3 with hcase | hcase
      · have hcc : r.campaign = r3.campaign := by rw [hreq]; rfl
        have hdd : r.description = r3.description := by rw [hreq]; rfl
        rw [hcc, hdd, hcase.1, hcase.2.1]
        exact ⟨rfl, rfl⟩
      · obtain ⟨c, hc, hck, _⟩ := hcase
        have hcm : c ∈ camps := dedupFirstAux_subset camps [] c hc
        have : c.household_key = r.household_key := by
          rw [hck, hb2, hb1, hkey]
        exact absurd this (hnc c hcm)

theorem enrich_preserves_rows_witness :
    ((([] : List Product).map Product.product_id).Nodup ∧
     (([] : List Household).map Household.household_key).Nodup) ∧
    ((enrich [tA] [] [] []).length = [tA].length ∧
     (enrich [tA] [] [] []).map FactRow.toTransaction = [tA] ∧
     ∀ r ∈ enrich [tA] [] [] [],
       ((∀ p ∈ ([] : List Product), p.product_id ≠ r.product_id) →
          r.department = none ∧ r.brand = none ∧ r.commodity_desc = none) ∧
       ((∀ x ∈ ([] : List Household), x.household_key ≠ r.household_key) →
          r.demographic_group = none ∧ r.demographic_type = none ∧
          r.demographic_level = none ∧ r.shopping_segment = none) ∧
       ((∀ c ∈ ([] : List CampaignRow), c.household_key ≠ r.household_key) →
          r.campaign = none ∧ r.description = none)) :=
  ⟨⟨by decide, by decide⟩,
   enrich_preserves_rows [tA] [] [] [] (by decide) (by decide)⟩

/-- C2: the date normalizer sends a 1-based day offset `d` to
`start_date + (d - 1)` days (so `d = 1` is exactly the epoch); the `DATE`
column of every enriched row and the `START_DATE` / `END_DATE` columns of
`campaign_desc` are computed with it. -/
theorem normalizeDay_spec :
    (∀ d : ℤ, 1 ≤ d →
       normalizeDay d = start_date + (d - 1) ∧
       (d = 1 → normalizeDay d = start_date)) ∧
    (∀ (trans : List Transaction) (prods : List Product)
       (hhs : List Household) (camps : List CampaignRow),
       ∀ r ∈ enrich trans prods hhs camps,
         r.date = start_date + (r.day - 1)) ∧
    (∀ c : CampaignDesc,
       (addCampaignDates c).start_date_col = start_date + (c.start_day - 1) ∧
       (addCampaignDates c).end_date_col = start_date + (c.end_day - 1)) := by
  refine ⟨?_, ?_, ?_⟩
  · intro d _
    refine ⟨rfl, ?_⟩
    intro hd
    subst hd
    show start_date + (1 - 1) = start_date
    omega
  · intro trans prods hhs camps r hr
    obtain ⟨t, ht, r1, hm1, r2, hm2, r3, hm3, hreq⟩ := enrich_mem hr
    obtain ⟨hb1, hdate⟩ := joinProduct_base prods t r1 hm1
    have hb2 : r2.r1 = r1 := joinDemo_base hhs r1 r2 hm2
    have hb3 : r3.r2 = r2 := joinCampaign_base (dedupFirst camps) r2 r3 hm3
    have h1 : r.date = r1.date := by
      rw [hreq]; show r3.r2.r1.date = r1.date; rw [hb3, hb2]
    have h2 : r.day = t.day := by
      rw [hreq]; show r3.r2.r1.tr.day = t.day; rw [hb3, hb2, hb1]
    rw [h1, h2, hdate]
    rfl
  · intro c
    exact ⟨rfl, rfl⟩

theorem normalizeDay_spec_witness :
    ((1 : ℤ) ≤ 5 ∧ normalizeDay 5 = start_date + (5 - 1)) ∧
    ((1 : ℤ) ≤ 1 ∧ normalizeDay 1 = start_date) ∧
    (deriveFeatures (bareRow3 tA) ∈ enrich [tA] [] [] [] ∧
     (deriveFeatures (bareRow3 tA)).date =
       start_date + ((deriveFeatures (bareRow3 tA)).day - 1)) :=
  ⟨⟨by decide, (normalizeDay_spec.1 5 (by decide)).1⟩,
   ⟨by decide, (normalizeDay_spec.1 1 (by decide)).2 rfl⟩,
   ⟨List.mem_singleton.mpr rfl,
    normalizeDay_spec.2.1 [tA] [] [] [] (deriveFeatures (bareRow3 tA))
      (List.mem_singleton.mpr rfl)⟩⟩

/-- C3: in every enriched row the `IN_CAMPAIGN` flag is 0 or 1, it is 1
exactly when the row's household key appears in the campaign participation
table, and an unmatched row gets flag 0 with the `"No Campaign"` sentinel as
its campaign description. -/
theorem in_campaign_flag_spec (trans : List Transaction) (prods : List Product)
    (hhs : List Household) (camps : List CampaignRow) :
    ∀ r ∈ enrich trans prods hhs camps,
      (r.in_campaign = 0 ∨ r.in_campaign = 1) ∧
      (r.in_campaign = 1 ↔
        r.household_key ∈ camps.map CampaignRow.household_key) ∧
      (r.household_key ∉ camps.map CampaignRow.household_key →
        r.in_campaign = 0 ∧ r.campaign_type = "No Campaign") := by
  intro r hr
  obtain ⟨t, ht, r1, hm1, r2, hm2, r3, hm3, hreq⟩ := enrich_mem hr
  have hb1 : r1.tr = t := (joinProduct_base prods t r1 hm1).1
  have hb2 : r2.r1 = r1 := joinDemo_base hhs r1 r2 hm2
  have hkey : r2.r1.tr.household_key = r.household_key := by
    rw [hreq]
    show r2.r1.tr.household_key = r3.r2.r1.tr.household_key
    rw [joinCampaign_base (dedupFirst camps) r2 r3 hm3]
  have hic : r.in_campaign = r3.in_campaign_merged.getD 0 := by rw [hreq]; rfl
  have hct : r.campaign_type = r3.description.getD "No Campaign" := by
    rw [hreq]; rfl
  rcases joinCampaign_cases (dedupFirst camps) r2 r3 hm3 with hcase | hcase
  · obtain ⟨_, hdesc, hmerged, hnone⟩ := hcase
    have hflag : r.in_campaign = 0 := by rw [hic, hmerged]; rfl
    have hnotmem : r.household_key ∉ camps.map CampaignRow.household_key := by
      intro hmem
      have hded : r.household_key ∈
          (dedupFirstAux camps []).map CampaignRow.household_key := by
        rw [dedupFirstAux_mem_keys]
        exact ⟨hmem, List.not_mem_nil _⟩
      obtain ⟨c, hc, hck⟩ := List.mem_map.mp hded
      exact hnone c hc (by rw [hck, ← hkey])
    refine ⟨Or.inl hflag, ?_, ?_⟩
    · constructor
      · intro h1
        rw [hflag] at h1
        exact absurd h1 (by decide)
      · intro hmem
        exact absurd hmem hnotmem
    · intro _
      refine ⟨hflag, ?_⟩
      rw [hct, hdesc]
      rfl
  · obtain ⟨c, hc, hck, _, _, hmerged⟩ := hcase
    have hflag : r.in_campaign = 1 := by rw [hic, hmerged]; rfl
    have hmem : r.household_key ∈ camps.map CampaignRow.household_key := by
      have hcm : c ∈ camps := dedupFirstAux_subset camps [] c hc
      have : c.household_key = r.household_key := by rw [hck, hkey]
      rw [← this]
      exact List.mem_map_of_mem CampaignRow.household_key hcm
    refine ⟨Or.inr hflag, ?_, ?_⟩
    · exact ⟨fun _ => hmem, fun _ => hflag⟩
    · intro hnm
      exact absurd hmem hnm

theorem in_campaign_flag_spec_witness :
    (deriveFeatures (campRow3 tA cA) ∈ enrich [tA] [] [] [cA, cB]) ∧
    (((deriveFeatures (campRow3 tA cA)).in_campaign = 0 ∨
      (deriveFeatures (campRow3 tA cA)).in_campaign = 1) ∧
     ((deriveFeatures (campRow3 tA cA)).in_campaign = 1 ↔
       (deriveFeatures (campRow3 tA cA)).household_key ∈
         [cA, cB].map CampaignRow.household_key) ∧
     ((deriveFeatures (campRow3 tA cA)).household_key ∉
         [cA, cB].map CampaignRow.household_key →
       (deriveFeatures (campRow3 tA cA)).in_campaign = 0 ∧
       (deriveFeatures (campRow3 tA cA)).campaign_type = "No Campaign")) :=
  ⟨List.mem_singleton.mpr rfl,
   in_campaign_flag_spec [tA] [] [] [cA, cB] (deriveFeatures (campRow3 tA cA))
     (List.mem_singleton.mpr rfl)⟩

/-- C9: campaign deduplication keeps exactly one row per household — the
first row for that household in source-table order (`find?` semantics, no
sorting applied first) — and those first-row values are what the campaign
join attaches to every transaction of that household. -/
theorem campaign_dedup_first_spec (trans : List Transaction)
    (prods : List Product) (hhs : List Household) (camps : List CampaignRow) :
    ((dedupFirst camps).map CampaignRow.household_key).Nodup ∧
    (∀ k : ℕ, k ∈ (dedupFirst camps).map CampaignRow.household_key ↔
       k ∈ camps.map CampaignRow.household_key) ∧
    (∀ c ∈ dedupFirst camps,
       camps.find? (fun x => x.household_key == c.household_key) = some c) ∧
    (∀ r ∈ enrich trans prods hhs camps,
       r.household_key ∈ camps.map CampaignRow.household_key →
       ∃ c, camps.find? (fun x => x.household_key == r.household_key) = some c ∧
         r.campaign = some c.campaign ∧ r.description = some c.description) := by
  refine ⟨dedupFirstAux_keys_nodup camps [], ?_, ?_, ?_⟩
  · intro k
    rw [show dedupFirst camps = dedupFirstAux camps [] from rfl,
        dedupFirstAux_mem_keys]
    simp
  · exact dedupFirstAux_find camps []
  · intro r hr hmem
    obtain ⟨t, ht, r1, hm1, r2, hm2, r3, hm3, hreq⟩ := enrich_mem hr
    have hb1 : r1.tr = t := (joinProduct_base prods t r1 hm1).1
    have hb2 : r2.r1 = r1 := joinDemo_base hhs r1 r2 hm2
    have hkey : r2.r1.tr.household_key = r.household_key := by
      rw [hreq]
      show r2.r1.tr.household_key = r3.r2.r1.tr.household_key
      rw [joinCampaign_base (dedupFirst camps) r2 r3 hm3]
    rcases joinCampaign_cases (dedupFirst camps) r2 r3 hm3 with hcase | hcase
    · exfalso
      obtain ⟨_, _, _, hnone⟩ := hcase
      have hded : r.household_key ∈
          (dedupFirstAux camps []).map CampaignRow.household_key := by
        rw [dedupFirstAux_mem_keys]
        exact ⟨hmem, List.not_mem_nil _⟩
      obtain ⟨c, hc, hck⟩ := List.mem_map.mp hded
      exact hnone c hc (by rw [hck, ← hkey])
    · obtain ⟨c, hc, hck, hcamp, hdesc, _⟩ := hcase
      refine ⟨c, ?_, ?_, ?_⟩
      · have hfind := dedupFirstAux_find camps [] c hc
        rw [show c.household_key = r.household_key from by rw [hck, hkey]] at hfind
        exact hfind
      · rw [hreq]
        show r3.campaign = some c.campaign
        exact hcamp
      · rw [hreq]
        show r3.description = some c.description
        exact hdesc

theorem campaign_dedup_first_spec_witness :
    ((dedupFirst [cA, cB]).map CampaignRow.household_key).Nodup ∧
    (deriveFeatures (campRow3 tA cA) ∈ enrich [tA] [] [] [cA, cB] ∧
     (deriveFeatures (campRow3 tA cA)).household_key ∈
       [cA, cB].map CampaignRow.household_key ∧
     ∃ c, [cA, cB].find?
         (fun x => x.household_key ==
           (deriveFeatures (campRow3 tA cA)).household_key) = some c ∧
       (deriveFeatures (campRow3 tA cA)).campaign = some c.campaign ∧
       (deriveFeatures (campRow3 tA cA)).description = some c.description) :=
  ⟨(campaign_dedup_first_spec [tA] [] [] [cA, cB]).1,
   List.mem_singleton.mpr rfl, by decide,
   (campaign_dedup_first_spec [tA] [] [] [cA, cB]).2.2.2
     (deriveFeatures (campRow3 tA cA)) (List.mem_singleton.mpr rfl)
     (by decide)⟩

lemma enrich_row_shape {trans : List Transaction} {prods : List Product}
    {hhs : List Household} {camps : List CampaignRow} {r : FactRow}
    (hr : r ∈ enrich trans prods hhs camps) :
    r.total_discount = r.coupon_match_disc + r.coupon_disc + r.retail_disc ∧
    r.discount_rate =
      fillna0 (pdiv r.total_discount (r.sales_value + r.total_discount)) ∧
    r.unit_price = pdiv r.sales_value (r.quantity : ℚ) ∧
    r.has_discount = (if 0 < r.total_discount then 1 else 0) ∧
    r.net_revenue = r.sales_value := by
  obtain ⟨t, ht, r1, hm1, r2, hm2, r3, hm3, hreq⟩ := enrich_mem hr
  subst hreq
  exact ⟨rfl, rfl, rfl, rfl, rfl⟩

/-- C10: in every enriched row the `HAS_DISCOUNT` flag is 0 or 1 and is 1
exactly when `TOTAL_DISCOUNT` is strictly positive; all-zero discount
components, and the non-positive totals of the source sign convention, give
flag 0. -/
theorem has_discount_flag_spec (trans : List Transaction)
    (prods : List Product) (hhs : List Household) (camps : List CampaignRow) :
    ∀ r ∈ enrich trans prods hhs camps,
      (r.has_discount = 0 ∨ r.has_discount = 1) ∧
      (r.has_discount = 1 ↔ 0 < r.total_discount) ∧
      ((r.coupon_match_disc = 0 ∧ r.coupon_disc = 0 ∧ r.retail_disc = 0) →
        r.has_discount = 0) ∧
      (r.total_discount ≤ 0 → r.has_discount = 0) := by
  intro r hr
  obtain ⟨hsum, _, _, hflag, _⟩ := enrich_row_shape hr
  by_cases hpos : 0 < r.total_discount
  · rw [hflag, if_pos hpos]
    refine ⟨Or.inr rfl, ⟨fun _ => hpos, fun _ => rfl⟩, ?_, ?_⟩
    · rintro ⟨h1, h2, h3⟩
      rw [hsum, h1, h2, h3] at hpos
      norm_num at hpos
    · intro hle
      exact absurd hpos (not_lt.mpr hle)
  · rw [hflag, if_neg hpos]
    exact ⟨Or.inl rfl, ⟨fun h => absurd h (by decide), fun h => absurd h hpos⟩,
      fun _ => rfl, fun _ => rfl⟩

theorem has_discount_flag_spec_witness :
    (deriveFeatures (bareRow3 tA) ∈ enrich [tA] [] [] []) ∧
    ((deriveFeatures (bareRow3 tA)).coupon_match_disc = 0 ∧
     (deriveFeatures (bareRow3 tA)).coupon_disc = 0 ∧
     (deriveFeatures (bareRow3 tA)).retail_disc = 0) ∧
    (deriveFeatures (bareRow3 tA)).total_discount ≤ 0 ∧
    ((deriveFeatures (bareRow3 tA)).has_discount = 0 ∨
     (deriveFeatures (bareRow3 tA)).has_discount = 1) ∧
    (deriveFeatures (bareRow3 tA)).has_discount = 0 :=
  ⟨List.mem_singleton.mpr rfl, ⟨rfl, rfl, rfl⟩,
   by simp [deriveFeatures, bareRow3, tA],
   (has_discount_flag_spec [tA] [] [] [] (deriveFeatures (bareRow3 tA))
     (List.mem_singleton.mpr rfl)).1,
   (has_discount_flag_spec [tA] [] [] [] (deriveFeatures (bareRow3 tA))
     (List.mem_singleton.mpr rfl)).2.2.1 ⟨rfl, rfl, rfl⟩⟩

/-- C4 (counterexample): a fully discounted row (`SALES_VALUE = 5`,
`TOTAL_DISCOUNT = -5`) has a zero denominator but a `DISCOUNT_RATE` of
`-inf`, not `0`: `fillna(0)` only replaces the `NaN` produced by `0/0`, not
the infinities produced by `x/0` with `x ≠ 0`. -/
theorem discount_rate_zero_denominator_counterexample :
    (enrich [tB] [] [] []).map FactRow.discount_rate = [PVal.ninf] ∧
    (enrich [tB] [] [] []).map
      (fun r => r.sales_value + r.total_discount) = [0] ∧
    PVal.ninf ≠ PVal.num 0 := by
  refine ⟨?_, ?_, by simp⟩
  · show [(deriveFeatures (bareRow3 tB)).discount_rate] = [PVal.ninf]
    norm_num [deriveFeatures, bareRow3, tB, pdiv, fillna0]
  · show [(deriveFeatures (bareRow3 tB)).sales_value +
          (deriveFeatures (bareRow3 tB)).total_discount] = [(0 : ℚ)]
    norm_num [deriveFeatures, bareRow3, tB]

/-- C4 (amended): `DISCOUNT_RATE` equals
`TOTAL_DISCOUNT / (SALES_VALUE + TOTAL_DISCOUNT)` when the denominator is
nonzero; when the denominator is zero it equals `0` only if `TOTAL_DISCOUNT`
is also zero, and is `+inf` / `-inf` for positive / negative
`TOTAL_DISCOUNT`; the computation is total, so no error is ever raised. -/
theorem discount_rate_spec_amended (trans : List Transaction)
    (prods : List Product) (hhs : List Household) (camps : List CampaignRow) :
    ∀ r ∈ enrich trans prods hhs camps,
      (r.sales_value + r.total_discount ≠ 0 →
        r.discount_rate =
          PVal.num (r.total_discount / (r.sales_value + r.total_discount))) ∧
      (r.sales_value + r.total_discount = 0 →
        (r.total_discount = 0 → r.discount_rate = PVal.num 0) ∧
        (0 < r.total_discount → r.discount_rate = PVal.inf) ∧
        (r.total_discount < 0 → r.discount_rate = PVal.ninf)) := by
  intro r hr
  obtain ⟨_, hrate, _, _, _⟩ := enrich_row_shape hr
  constructor
  · intro hne
    rw [hrate]
    simp [pdiv, hne, fillna0]
  · intro hzero
    rw [hrate, hzero]
    refine ⟨?_, ?_, ?_⟩
    · intro h0
      rw [h0]
      simp [pdiv, fillna0]
    · intro hpos
      simp [pdiv, not_lt.mpr (le_of_lt hpos), hpos, ne_of_gt hpos, fillna0]
    · intro hneg
      simp [pdiv, not_lt.mpr (le_of_lt hneg), hneg, ne_of_lt hneg, fillna0,
        asymm hneg]

theorem discount_rate_spec_amended_witness :
    (deriveFeatures (bareRow3 tF) ∈ enrich [tF] [] [] []) ∧
    ((deriveFeatures (bareRow3 tF)).sales_value +
       (deriveFeatures (bareRow3 tF)).total_discount = 0) ∧
    ((deriveFeatures (bareRow3 tF)).total_discount = 0) ∧
    (deriveFeatures (bareRow3 tF)).discount_rate = PVal.num 0 :=
  ⟨List.mem_singleton.mpr rfl,
   by simp [deriveFeatures, bareRow3, tF],
   by simp [deriveFeatures, bareRow3, tF],
   ((discount_rate_spec_amended [tF] [] [] [] (deriveFeatures (bareRow3 tF))
       (List.mem_singleton.mpr rfl)).2
     (by simp [deriveFeatures, bareRow3, tF])).1
     (by simp [deriveFeatures, bareRow3, tF])⟩

/-- C5: with nonnegative `SALES_VALUE` and nonnegative `TOTAL_DISCOUNT`, the
derived `DISCOUNT_RATE` is a finite value in `[0, 1]`, and it is exactly `0`
whenever `TOTAL_DISCOUNT + SALES_VALUE = 0`. -/
theorem discount_rate_bounds (trans : List Transaction) (prods : List Product)
    (hhs : List Household) (camps : List CampaignRow) :
    ∀ r ∈ enrich trans prods hhs camps,
      0 ≤ r.sales_value → 0 ≤ r.total_discount →
      ((∃ q : ℚ, r.discount_rate = PVal.num q ∧ 0 ≤ q ∧ q ≤ 1) ∧
       (r.total_discount + r.sales_value = 0 →
         r.discount_rate = PVal.num 0)) := by
  intro r hr hs hd
  obtain ⟨_, hrate, _, _, _⟩ := enrich_row_shape hr
  by_cases hden : r.sales_value + r.total_discount = 0
  · have hd0 : r.total_discount = 0 := by linarith
    have hz : r.discount_rate = PVal.num 0 := by
      rw [hrate, hden, hd0]
      simp [pdiv, fillna0]
    exact ⟨⟨0, hz, le_refl 0, by norm_num⟩, fun _ => hz⟩
  · have hpos : 0 < r.sales_value + r.total_discount :=
      lt_of_le_of_ne (by linarith) (Ne.symm hden)
    have hq : r.discount_rate =
        PVal.num (r.total_discount / (r.sales_value + r.total_discount)) := by
      rw [hrate]
      simp [pdiv, hden, fillna0]
    refine ⟨⟨_, hq, div_nonneg hd (le_of_lt hpos), ?_⟩, ?_⟩
    · rw [div_le_one hpos]
      linarith
    · intro hzero
      exact absurd (by linarith : r.sales_value + r.total_discount = 0) hden

theorem discount_rate_bounds_witness :
    (deriveFeatures (bareRow3 tF) ∈ enrich [tF] [] [] []) ∧
    (0 ≤ (deriveFeatures (bareRow3 tF)).sales_value ∧
     0 ≤ (deriveFeatures (bareRow3 tF)).total_discount) ∧
    ((deriveFeatures (bareRow3 tF)).total_discount +
       (deriveFeatures (bareRow3 tF)).sales_value = 0) ∧
    ((∃ q : ℚ, (deriveFeatures (bareRow3 tF)).discount_rate = PVal.num q ∧
        0 ≤ q ∧ q ≤ 1) ∧
     (deriveFeatures (bareRow3 tF)).discount_rate = PVal.num 0) :=
  ⟨List.mem_singleton.mpr rfl,
   ⟨by decide, by simp [deriveFeatures, bareRow3, tF]⟩,
   by simp [deriveFeatures, bareRow3, tF],
   ⟨(discount_rate_bounds [tF] [] [] [] (deriveFeatures (bareRow3 tF))
       (List.mem_singleton.mpr rfl) (by decide)
       (by simp [deriveFeatures, bareRow3, tF])).1,
    (discount_rate_bounds [tF] [] [] [] (deriveFeatures (bareRow3 tF))
       (List.mem_singleton.mpr rfl) (by decide)
       (by simp [deriveFeatures, bareRow3, tF])).2
      (by simp [deriveFeatures, bareRow3, tF])⟩⟩

/-- C6 (counterexample): a row with `QUANTITY = 0` and `SALES_VALUE = 5` gets
`UNIT_PRICE = +inf`, which is not a missing value (`isna` is false): the
claim that a zero quantity always yields an undefined/missing value fails
when the sales value is nonzero. -/
theorem unit_price_zero_quantity_counterexample :
    (enrich [tC] [] [] []).map FactRow.unit_price = [PVal.inf] ∧
    (enrich [tC] [] [] []).map FactRow.quantity = [0] ∧
    PVal.isna PVal.inf = false ∧ PVal.inf ≠ PVal.num 0 := by
  refine ⟨?_, rfl, rfl, by simp⟩
  show [(deriveFeatures (bareRow3 tC)).unit_price] = [PVal.inf]
  norm_num [deriveFeatures, bareRow3, tC, pdiv]

/-- C6 (amended): `UNIT_PRICE = SALES_VALUE / QUANTITY` when the quantity is
nonzero; when the quantity is zero it is the missing value NaN only if the
sales value is also zero, and `+inf` / `-inf` otherwise — in every
zero-quantity case it is a non-numeric special value, never coerced to `0`,
and the computation is total, so no error is raised. -/
theorem unit_price_spec_amended (trans : List Transaction)
    (prods : List Product) (hhs : List Household) (camps : List CampaignRow) :
    ∀ r ∈ enrich trans prods hhs camps,
      (r.quantity ≠ 0 →
        r.unit_price = PVal.num (r.sales_value / (r.quantity : ℚ))) ∧
      (r.quantity = 0 →
        (r.sales_value = 0 →
           r.unit_price = PVal.nan ∧ PVal.isna r.unit_price = true) ∧
        (0 < r.sales_value → r.unit_price = PVal.inf) ∧
        (r.sales_value < 0 → r.unit_price = PVal.ninf) ∧
        r.unit_price ≠ PVal.num 0) := by
  intro r hr
  obtain ⟨_, _, hup, _, _⟩ := enrich_row_shape hr
  constructor
  · intro hq
    have hqc : (r.quantity : ℚ) ≠ 0 := Int.cast_ne_zero.mpr hq
    rw [hup]
    simp [pdiv, hqc]
  · intro hq
    rw [hup, hq]
    have hc : ((0 : ℤ) : ℚ) = 0 := Int.cast_zero
    rw [hc]
    refine ⟨?_, ?_, ?_, ?_⟩
    · intro hs
      rw [hs]
      constructor
      · simp [pdiv]
      · simp [pdiv, PVal.isna]
    · intro hs
      simp [pdiv, hs, ne_of_gt hs]
    · intro hs
      simp [pdiv, hs, ne_of_lt hs, asymm hs]
    · rcases lt_trichotomy r.sales_value 0 with hs | hs | hs
      · simp [pdiv, hs, ne_of_lt hs, asymm hs]
      · rw [hs]; simp [pdiv]
      · simp [pdiv, hs, ne_of_gt hs]

theorem unit_price_spec_amended_witness :
    (deriveFeatures (bareRow3 tC) ∈ enrich [tC] [] [] []) ∧
    ((deriveFeatures (bareRow3 tC)).quantity = 0 ∧
     0 < (deriveFeatures (bareRow3 tC)).sales_value) ∧
    (deriveFeatures (bareRow3 tC)).unit_price = PVal.inf ∧
    (deriveFeatures (bareRow3 tC)).unit_price ≠ PVal.num 0 ∧
    (deriveFeatures (bareRow3 tA) ∈ enrich [tA] [] [] []) ∧
    ((deriveFeatures (bareRow3 tA)).quantity ≠ 0 ∧
     (deriveFeatures (bareRow3 tA)).unit_price =
       PVal.num ((deriveFeatures (bareRow3 tA)).sales_value /
         ((deriveFeatures (bareRow3 tA)).quantity : ℚ))) :=
  ⟨List.mem_singleton.mpr rfl,
   ⟨rfl, by decide⟩,
   ((unit_price_spec_amended [tC] [] [] [] (deriveFeatures (bareRow3 tC))
       (List.mem_singleton.mpr rfl)).2 rfl).2.1 (by decide),
   ((unit_price_spec_amended [tC] [] [] [] (deriveFeatures (bareRow3 tC))
       (List.mem_singleton.mpr rfl)).2 rfl).2.2.2,
   List.mem_singleton.mpr rfl,
   ⟨by decide,
    (unit_price_spec_amended [tA] [] [] [] (deriveFeatures (bareRow3 tA))
       (List.mem_singleton.mpr rfl)).1 (by decide)⟩⟩

lemma sum_map_ite_key (L : List String) (hN : L.Nodup) (o : Option String)
    (v : ℚ) :
    (L.map (fun dep => if o == some dep then v else 0)).sum =
      if o ∈ L.map Option.some then v else 0 := by
  induction L with
  | nil => simp
  | cons d L ih =>
      simp only [List.nodup_cons] at hN
      simp only [List.map_cons, List.sum_cons]
      by_cases hd : o = some d
      · have hno : o ∉ L.map Option.some := by
          rw [hd]
          intro hc
          obtain ⟨x, hx, hxe⟩ := List.mem_map.mp hc
          have hxd : x = d := Option.some_inj.mp hxe
          exact hN.1 (hxd ▸ hx)
        rw [if_pos (by simp [hd]), ih hN.2, if_neg hno, add_zero,
          if_pos (by simp [hd])]
      · rw [if_neg (by simp [hd]), ih hN.2, zero_add]
        have hiff : o ∈ (some d :: L.map Option.some) ↔
            o ∈ L.map Option.some := by
          simp [List.mem_cons, hd]
        rw [if_congr hiff rfl rfl]

lemma dept_groups_sum (rows : List FactRow) (L : List String) (hN : L.Nodup) :
    (L.map (fun dep =>
        ((rows.filter (fun r => r.department == some dep)).map
          FactRow.sales_value).sum)).sum =
      ((rows.filter (fun r =>
          decide (r.department ∈ L.map Option.some))).map
        FactRow.sales_value).sum := by
  induction rows with
  | nil => simp
  | cons r rows ih =>
      have hmapeq : L.map (fun dep =>
          (((r :: rows).filter (fun x => x.department == some dep)).map
            FactRow.sales_value).sum) =
        L.map (fun dep =>
          (if r.department == some dep then r.sales_value else 0) +
            ((rows.filter (fun x => x.department == some dep)).map
              FactRow.sales_value).sum) := by
        refine List.map_congr_left (fun dep _ => ?_)
        by_cases hc : r.department = some dep
        · simp [List.filter_cons, hc]
        · simp [List.filter_cons, hc]
      rw [hmapeq, List.sum_map_add, sum_map_ite_key L hN, ih]
      by_cases hm : r.department ∈ L.map Option.some
      · rw [if_pos hm]
        have hdec : decide (r.department ∈ L.map Option.some) = true :=
          decide_eq_true hm
        rw [List.filter_cons, hdec]
        simp
      · rw [if_neg hm, zero_add]
        have hdec : decide (r.department ∈ L.map Option.some) = false :=
          decide_eq_false hm
        rw [List.filter_cons, hdec]
        simp

lemma dept_performance_revenue_sum (rows : List FactRow) :
    ((dept_performance rows).map DeptPerf.total_revenue).sum =
      ((rows.filter (fun r => r.department.isSome)).map
        FactRow.sales_value).sum := by
  unfold dept_performance
  rw [List.map_map]
  show (((rows.filterMap FactRow.department).dedup).map (fun dep =>
      ((rows.filter (fun r => r.department == some dep)).map
        FactRow.sales_value).sum)).sum = _
  rw [dept_groups_sum rows ((rows.filterMap FactRow.department).dedup)
    (List.nodup_dedup _)]
  have hcong : ∀ r ∈ rows,
      decide (r.department ∈
        ((rows.filterMap FactRow.department).dedup).map Option.some) =
      r.department.isSome := by
    intro r hrr
    cases hdep : r.department with
    | none => simp
    | some d =>
        have hd : d ∈ rows.filterMap FactRow.department :=
          List.mem_filterMap.mpr ⟨r, hrr, hdep⟩
        have hdd : d ∈ (rows.filterMap FactRow.department).dedup :=
          List.mem_dedup.mpr hd
        have hmm : (some d) ∈
            ((rows.filterMap FactRow.department).dedup).map Option.some :=
          List.mem_map_of_mem Option.some hdd
        rw [decide_eq_true hmm]
        rfl
  rw [List.filter_congr hcong]

/-- C7 (counterexample): with a transaction whose product key matches no
product row, the department rollup is empty (pandas `groupby` drops null
keys), so the summed department revenue (0) differs from the fact-table
sales total (10). -/
theorem dept_revenue_conservation_counterexample :
    ((dept_performance (enrich [tA] [] [] [])).map
        DeptPerf.total_revenue).sum ≠
      ((enrich [tA] [] [] []).map FactRow.sales_value).sum := by
  have h1 : dept_performance (enrich [tA] [] [] []) = [] := rfl
  have h2 : (enrich [tA] [] [] []).map FactRow.sales_value = [(10 : ℚ)] := rfl
  rw [h1, h2]
  simp

/-- C7 (amended): the summed department `TOTAL_REVENUE` equals the
`SALES_VALUE` total over the rows whose `DEPARTMENT` is present — rows with
a missing grouping key are excluded from the rollup; in particular, whenever
no row has a missing department (no dangling product key), it equals the
total over the whole enriched fact table. -/
theorem dept_revenue_conservation_amended (trans : List Transaction)
    (prods : List Product) (hhs : List Household) (camps : List CampaignRow) :
    ((dept_performance (enrich trans prods hhs camps)).map
        DeptPerf.total_revenue).sum =
      (((enrich trans prods hhs camps).filter
          (fun r => r.department.isSome)).map FactRow.sales_value).sum ∧
    ((∀ r ∈ enrich trans prods hhs camps, r.department.isSome = true) →
      ((dept_performance (enrich trans prods hhs camps)).map
          DeptPerf.total_revenue).sum =
        ((enrich trans prods hhs camps).map FactRow.sales_value).sum) := by
  refine ⟨dept_performance_revenue_sum _, ?_⟩
  intro hall
  rw [dept_performance_revenue_sum _, List.filter_eq_self.mpr hall]

theorem dept_revenue_conservation_amended_witness :
    (∀ r ∈ enrich [tA] [pA] [] [], r.department.isSome = true) ∧
    ((dept_performance (enrich [tA] [pA] [] [])).map
        DeptPerf.total_revenue).sum =
      ((enrich [tA] [pA] [] []).map FactRow.sales_value).sum :=
  ⟨fun r hr => by rw [List.mem_singleton.mp hr]; rfl,
   (dept_revenue_conservation_amended [tA] [pA] [] []).2
     (fun r hr => by rw [List.mem_singleton.mp hr]; rfl)⟩

/-- C8: every customer-metrics entry derives its ratios from the
already-reduced measures — `DAYS_ACTIVE` is last minus first purchase date
plus one, `AVG_BASKET_VALUE` is `TOTAL_SPENT / NUM_TRIPS`, `ITEMS_PER_TRIP`
is `TOTAL_ITEMS / NUM_TRIPS`, `DISCOUNT_RATE` is
`TOTAL_DISCOUNTS / (TOTAL_SPENT + TOTAL_DISCOUNTS)` — with `NUM_TRIPS`, the
distinct basket count, always positive; and a household with exactly two
baskets totalling 50 and 30 yields `NUM_TRIPS = 2`, `TOTAL_SPENT = 80`,
`AVG_BASKET_VALUE = 40`. -/
theorem customer_metrics_ratio_spec :
    (∀ rows : List FactRow, ∀ e ∈ customer_metrics rows,
       0 < e.num_trips ∧
       e.days_active = (e.last_purchase - e.first_purchase) + 1 ∧
       e.avg_basket_value = PVal.num (e.total_spent / (e.num_trips : ℚ)) ∧
       e.items_per_trip =
         PVal.num ((e.total_items : ℚ) / (e.num_trips : ℚ)) ∧
       (e.total_spent + e.total_discounts ≠ 0 →
         e.discount_rate =
           PVal.num (e.total_discounts /
             (e.total_spent + e.total_discounts)))) ∧
    (∃ e, customer_metrics (enrich [tE, tD] [] [] []) = [e] ∧
       e.num_trips = 2 ∧ e.total_spent = 80 ∧
       e.avg_basket_value = PVal.num 40) := by
  constructor
  · intro rows e he
    unfold customer_metrics at he
    obtain ⟨h, hh, hee⟩ := List.mem_map.mp he
    have hhk : h ∈ rows.map FactRow.household_key := List.mem_dedup.mp hh
    obtain ⟨r, hrr, hrk⟩ := List.mem_map.mp hhk
    have hrg : r ∈ rows.filter (fun x => x.household_key == h) :=
      List.mem_filter.mpr ⟨hrr, by simp [hrk]⟩
    have hdne :
        ((rows.filter (fun x => x.household_key == h)).map
          FactRow.basket_id).dedup ≠ [] := by
      intro hc
      rw [List.dedup_eq_nil, List.map_eq_nil_iff] at hc
      exact List.ne_nil_of_mem hrg hc
    have htr : 0 <
        (((rows.filter (fun x => x.household_key == h)).map
          FactRow.basket_id).dedup).length :=
      List.length_pos.mpr hdne
    have hq : ((((rows.filter (fun x => x.household_key == h)).map
        FactRow.basket_id).dedup).length : ℚ) ≠ 0 :=
      Nat.cast_ne_zero.mpr (Nat.pos_iff_ne_zero.mp htr)
    subst hee
    refine ⟨htr, rfl, ?_, ?_, ?_⟩
    · show pdiv _ _ = _
      simp [pdiv, hq]
    · show pdiv _ _ = _
      simp [pdiv, hq]
    · intro hne
      show pdiv _ _ = _
      simp [pdiv, hne]
  · refine ⟨_, rfl, ?_, ?_, ?_⟩
    · decide
    · show (50 : ℚ) + (30 + 0) = 80
      norm_num
    · show pdiv ((50 : ℚ) + (30 + 0)) ((2 : ℕ) : ℚ) = PVal.num 40
      norm_num [pdiv]

theorem customer_metrics_ratio_spec_witness :
    (cmA ∈ customer_metrics (enrich [tA] [] [] [])) ∧
    (cmA.total_spent + cmA.total_discounts ≠ 0) ∧
    (0 < cmA.num_trips ∧
     cmA.days_active = (cmA.last_purchase - cmA.first_purchase) + 1 ∧
     cmA.avg_basket_value = PVal.num (cmA.total_spent / (cmA.num_trips : ℚ)) ∧
     cmA.items_per_trip =
       PVal.num ((cmA.total_items : ℚ) / (cmA.num_trips : ℚ)) ∧
     cmA.discount_rate =
       PVal.num (cmA.total_discounts /
         (cmA.total_spent + cmA.total_discounts))) := by
  have hmem : cmA ∈ customer_metrics (enrich [tA] [] [] []) :=
    List.mem_singleton.mpr rfl
  have hne : cmA.total_spent + cmA.total_discounts ≠ 0 := by
    show ((10 : ℚ) + 0) + ((0 + 0 + 0) + 0) ≠ 0
    simp
  have H := customer_metrics_ratio_spec.1 (enrich [tA] [] [] []) cmA hmem
  exact ⟨hmem, hne, H.1, H.2.1, H.2.2.1, H.2.2.2.1, H.2.2.2.2 hne⟩
